import Mathlib

/-!
Verification of the annotation and image-adjustment engine of the
Manual-Cell-Counter repository (package fluoro_analyzer), as a shallow
embedding in Lean.  Python floats are modelled over the rationals, numpy
uint8 pixel values over the naturals with explicit clipping, Python lists
as Lean lists, and the insertion-ordered cell-type dictionary as an
association list.  Each method of FluoroAnalyzer that mutates annotation
state becomes a pure function on an explicit state record; UI-only
side effects (status bar, widgets, scene items) are dropped.
-/

namespace FluoroAnalyzer

/-- A point in image coordinate space (QPointF), modelled over the rationals. -/
structure Point where
  x : ℚ
  y : ℚ
deriving DecidableEq

/-- datatypes.CellType: name, color, marker size (appearance fields kept
abstractly as a color string and a size). -/
structure CellType where
  name : String
  color : String
  marker_size : ℤ
deriving DecidableEq

/-- datatypes.CellMarker. -/
structure CellMarker where
  position : Point
  cell_type : String
  marker_number : ℕ
  roi_name : Option String
deriving DecidableEq

/-- datatypes.ROI. -/
structure ROI where
  name : String
  points : List Point
  color : String
  line_width : ℤ
  closed : Bool
deriving DecidableEq

/-- Modelled from the spec: QPolygonF.containsPoint with
Qt.FillRule.OddEvenFill is Qt library code outside the repository; the
spec (section 4.2) defines it as the even-odd rule over the polygon formed
by the points in order with an implicit closing edge.  One edge (a, b)
crosses the horizontal ray from p towards positive x exactly when the edge
spans the height of p and the crossing lies strictly right of p. -/
def edgeCrossesRay (p a b : Point) : Bool :=
  (decide (a.y > p.y) != decide (b.y > p.y)) &&
    decide (p.x < a.x + (b.x - a.x) * (p.y - a.y) / (b.y - a.y))

/-- The edge list of a polygon: consecutive pairs plus the implicit closing
edge from the last point back to the first. -/
def polygonEdges : List Point → List (Point × Point)
  | [] => []
  | p :: ps => List.zip (p :: ps) (ps ++ [p])

/-- Modelled from the spec: even-odd point-in-polygon test (spec section
4.2), standing in for the QPolygonF.containsPoint call with
OddEvenFill used by add_cell_marker, move_marker and find_roi_at. -/
def containsPointOddEven (poly : List Point) (p : Point) : Bool :=
  (polygonEdges poly).countP (fun e => edgeCrossesRay p e.1 e.2) % 2 == 1

/-- The marker-to-ROI membership loop shared by add_cell_marker
(main_window.py lines 983-989) and move_marker (lines 1137-1143): iterate
the ROI list in order, return the name of the first closed ROI containing
the position, none otherwise. -/
def resolveMembership : List ROI → Point → Option String
  | [], _ => none
  | roi :: rest, pos =>
    if roi.closed && containsPointOddEven roi.points pos then some roi.name
    else resolveMembership rest pos

/-- The annotation state owned by the FluoroAnalyzer main window: the
insertion-ordered cell-type dictionary, the marker list, the ROI list with
the index of the in-progress ROI (the Python current_roi reference aliases
an element of self.rois; it is modelled as the index of that element), the
undo stack (top at the end, matching list.append and list.pop) and the
selected-marker index. -/
structure AnnotationState where
  cellTypes : List (String × CellType)
  currentCellType : Option String
  cellMarkers : List CellMarker
  rois : List ROI
  currentRoi : Option ℕ
  undoStack : List CellMarker
  selectedMarkerIndex : ℤ
deriving DecidableEq

/-- Lookup in the insertion-ordered dictionary self.cell_types. -/
def lookupKey (k : String) (l : List (String × CellType)) : Option CellType :=
  (l.find? (fun e => e.1 == k)).map (fun e => e.2)

/-- Python del cell_types[k]: remove the unique entry with key k (the first
match, since dictionary keys are unique). -/
def removeKey (k : String) : List (String × CellType) → List (String × CellType)
  | [] => []
  | e :: rest => if e.1 == k then rest else e :: removeKey k rest

/-- Number of live markers of a given cell type, as computed by the
len(type_markers) expression in add_cell_marker (lines 991-992). -/
def countType (t : String) (ms : List CellMarker) : ℕ :=
  (ms.filter (fun m => m.cell_type == t)).length

/-- add_cell_marker (main_window.py lines 975-999): guard on a usable
current cell type (Python falsiness of None and of the empty string, and
dictionary membership), clear the undo stack, resolve ROI membership,
number the marker one past the current count of its type, append. -/
def addCellMarker (pos : Point) (s : AnnotationState) : AnnotationState :=
  match s.currentCellType with
  | none => s
  | some ct =>
    if ct == "" then s
    else if (lookupKey ct s.cellTypes).isNone then s
    else
      { s with
        undoStack := [],
        cellMarkers := s.cellMarkers ++
          [⟨pos, ct, countType ct s.cellMarkers + 1, resolveMembership s.rois pos⟩] }

/-- undo_last_marker (lines 1103-1110): pop the last marker onto the undo
stack. -/
def undoLastMarker (s : AnnotationState) : AnnotationState :=
  match s.cellMarkers.getLast? with
  | none => s
  | some m =>
    { s with cellMarkers := s.cellMarkers.dropLast,
             undoStack := s.undoStack ++ [m] }

/-- redo_marker (lines 1112-1119): pop the undo stack and re-append the
marker record as it was pushed. -/
def redoMarker (s : AnnotationState) : AnnotationState :=
  match s.undoStack.getLast? with
  | none => s
  | some m =>
    { s with undoStack := s.undoStack.dropLast,
             cellMarkers := s.cellMarkers ++ [m] }

/-- The renumbering loop of delete_selected_marker (lines 1166-1171):
walk the marker list with a counter starting at k, assigning the counter
to each marker of type t. -/
def renumberFrom (t : String) : ℕ → List CellMarker → List CellMarker
  | _, [] => []
  | k, m :: ms =>
    if m.cell_type == t then
      { m with marker_number := k } :: renumberFrom t (k + 1) ms
    else m :: renumberFrom t k ms

/-- delete_selected_marker (lines 1158-1174): when the selected index is in
range, pop that marker onto the undo stack, reset the selection and
renumber the remaining markers of its type densely from 1. -/
def deleteSelectedMarker (s : AnnotationState) : AnnotationState :=
  if 0 ≤ s.selectedMarkerIndex ∧ s.selectedMarkerIndex < (s.cellMarkers.length : ℤ) then
    match s.cellMarkers.get? s.selectedMarkerIndex.toNat with
    | none => s
    | some m =>
      { s with
        cellMarkers := renumberFrom m.cell_type 1
          (s.cellMarkers.eraseIdx s.selectedMarkerIndex.toNat),
        undoStack := s.undoStack ++ [m],
        selectedMarkerIndex := -1 }
  else s

/-- select_marker (lines 1148-1156): record the selected index. -/
def selectMarker (i : ℤ) (s : AnnotationState) : AnnotationState :=
  { s with selectedMarkerIndex := i }

/-- set_active_cell_type (lines 781-783). -/
def setActiveCellType (name : String) (s : AnnotationState) : AnnotationState :=
  { s with currentCellType := some name }

/-- move_marker (lines 1131-1146): in-range guard, set the position and
re-resolve ROI membership from scratch. -/
def moveMarker (idx : ℕ) (newPos : Point) (s : AnnotationState) : AnnotationState :=
  match s.cellMarkers.get? idx with
  | none => s
  | some m =>
    let moved := { m with position := newPos, roi_name := resolveMembership s.rois newPos }
    { s with cellMarkers := s.cellMarkers.set idx moved }

/-- The state-mutating core of _create_roi (lines 1247-1258): append a
fresh unclosed ROI with no points and point current_roi at it.  The color
and line width come from the UI controls and are passed as parameters. -/
def createRoi (name : String) (color : String) (lineWidth : ℤ)
    (s : AnnotationState) : AnnotationState :=
  { s with currentRoi := some s.rois.length,
           rois := s.rois ++ [⟨name, [], color, lineWidth, false⟩] }

/-- add_roi_point (lines 1260-1266): append a point to the in-progress
ROI when one exists. -/
def addRoiPoint (pos : Point) (s : AnnotationState) : AnnotationState :=
  match s.currentRoi with
  | none => s
  | some i =>
    match s.rois.get? i with
    | none => s
    | some roi =>
      { s with rois := s.rois.set i ({ roi with points := roi.points ++ [pos] }) }

/-- close_current_roi (lines 1268-1281): when an in-progress ROI with at
least 3 points exists, mark it closed and drop the current_roi reference;
with fewer than 3 points only a message is shown and nothing changes. -/
def closeCurrentRoi (s : AnnotationState) : AnnotationState :=
  match s.currentRoi with
  | none => s
  | some i =>
    match s.rois.get? i with
    | none => s
    | some roi =>
      if 3 ≤ roi.points.length then
        { s with rois := s.rois.set i ({ roi with closed := true }),
                 currentRoi := none }
      else s

/-- move_roi_vertex (lines 1364-1370): replace one vertex of one ROI. -/
def moveRoiVertex (roiIdx vertexIdx : ℕ) (newPos : Point)
    (s : AnnotationState) : AnnotationState :=
  match s.rois.get? roiIdx with
  | none => s
  | some roi =>
    if vertexIdx < roi.points.length then
      let moved := { roi with points := roi.points.set vertexIdx newPos }
      { s with rois := s.rois.set roiIdx moved }
    else s

/-- move_roi (lines 1372-1377): translate every point of one ROI by a
delta. -/
def moveRoi (roiIdx : ℕ) (delta : Point) (s : AnnotationState) : AnnotationState :=
  match s.rois.get? roiIdx with
  | none => s
  | some roi =>
    let moved := { roi with points := roi.points.map (fun p => ⟨p.x + delta.x, p.y + delta.y⟩) }
    { s with rois := s.rois.set roiIdx moved }

/-- rename_roi (lines 1379-1393): under the dialog guard (nonempty new
name different from the old one), find the first ROI with the old name,
rename it and cascade the new name to every marker referencing the old
one.  There is no check against the new name colliding with another
existing ROI name. -/
def renameFirstRoi (oldName newName : String) : List ROI → List ROI
  | [] => []
  | roi :: rest =>
    if roi.name == oldName then { roi with name := newName } :: rest
    else roi :: renameFirstRoi oldName newName rest

/-- rename_roi, continued: the whole-state effect. -/
def renameRoi (oldName newName : String) (s : AnnotationState) : AnnotationState :=
  if newName != "" && newName != oldName then
    if (s.rois.find? (fun r => r.name == oldName)).isSome then
      { s with
        rois := renameFirstRoi oldName newName s.rois,
        cellMarkers := s.cellMarkers.map (fun m =>
          if m.roi_name == some oldName then { m with roi_name := some newName } else m) }
    else s
  else s

/-- handle_cell_type_rename (lines 560-589): reject (no-op) when the new
name is already a cell-type key; otherwise pop the old entry, re-insert it
at the end of the dictionary under the new name, cascade to markers and to
the current cell type.  When the old name is absent the Python pop raises
before any state mutation, so the state is likewise unchanged. -/
def handleCellTypeRename (oldName newName : String) (s : AnnotationState) :
    AnnotationState :=
  if (lookupKey newName s.cellTypes).isSome then s
  else
    match lookupKey oldName s.cellTypes with
    | none => s
    | some ct =>
      { s with
        cellTypes := removeKey oldName s.cellTypes ++ [(newName, { ct with name := newName })],
        cellMarkers := s.cellMarkers.map (fun m =>
          if m.cell_type == oldName then { m with cell_type := newName } else m),
        currentCellType :=
          if s.currentCellType == some oldName then some newName else s.currentCellType }

/-- delete_cell_type (lines 522-558): reject when at most one cell type
remains; otherwise drop every marker of that type, remove the dictionary
entry, and when the deleted type was current, fall back to the first
remaining key (or none when the dictionary is empty). -/
def deleteCellType (name : String) (s : AnnotationState) : AnnotationState :=
  if s.cellTypes.length ≤ 1 then s
  else
    let cts := if (lookupKey name s.cellTypes).isSome then removeKey name s.cellTypes
               else s.cellTypes
    { s with
      cellMarkers := s.cellMarkers.filter (fun m => m.cell_type != name),
      cellTypes := cts,
      currentCellType :=
        if s.currentCellType == some name then
          match cts.head? with
          | some e => some e.1
          | none => none
        else s.currentCellType }

/-! Interchange-document import (import_coordinates, main_window.py lines
1743-1832).  The JSON document after parsing is modelled with optional
fields: a missing dictionary key accessed through .get is an Option with a
default, while a key accessed through square brackets raises KeyError when
absent.  The whole body runs inside one try/except; an exception raised
mid-way leaves every mutation already performed in place. -/

/-- One entry of a points list in the document; both coordinates are read
with square brackets, so a missing one raises. -/
structure DocPoint where
  px : Option ℚ
  py : Option ℚ
deriving DecidableEq

/-- One ROI entry of the document; all fields are read with .get. -/
structure DocRoi where
  name : Option String
  color : Option String
  line_width : Option ℤ
  points : List DocPoint
deriving DecidableEq

/-- One marker entry of the document; cell_type and roi are read with
.get, x and y with square brackets. -/
structure DocMarker where
  cell_type : Option String
  mx : Option ℚ
  my : Option ℚ
  roi : Option String
deriving DecidableEq

/-- The parsed interchange document (top-level keys rois and markers are
optional; the adjustments block is read entirely with .get defaults and
cannot raise, so it is omitted from the failure model). -/
structure Doc where
  rois : Option (List DocRoi)
  markers : Option (List DocMarker)
deriving DecidableEq

/-- The clearing block of import_coordinates (lines 1749-1757), executed
immediately after json.load succeeds and before any entry is examined. -/
def clearForImport (s : AnnotationState) : AnnotationState :=
  { s with cellMarkers := [], undoStack := [], rois := [], currentRoi := none,
           selectedMarkerIndex := -1 }

/-- The inner points loop of the ROI import: every point is read with
square brackets, so a missing coordinate raises (none result). -/
def docPointsToPoints : List DocPoint → Option (List Point)
  | [] => some []
  | p :: ps =>
    match p.px, p.py with
    | some x, some y => (docPointsToPoints ps).map (fun rest => (⟨x, y⟩ : Point) :: rest)
    | _, _ => none

/-- The ROI loop of import_coordinates (lines 1760-1773): each document
ROI is rebuilt with closed set to true and appended when it has at least
one point.  The Bool result records whether an exception aborted the loop;
the state result is whatever had been committed up to that moment. -/
def importRois : AnnotationState → List DocRoi → AnnotationState × Bool
  | s, [] => (s, false)
  | s, rd :: rest =>
    match docPointsToPoints rd.points with
    | none => (s, true)
    | some pts =>
      let roi : ROI := ⟨rd.name.getD "ROI", pts, rd.color.getD "#ffff00", rd.line_width.getD 2, true⟩
      let s1 := if pts.isEmpty then s else { s with rois := s.rois ++ [roi] }
      importRois s1 rest

/-- Default appearance given to a cell type auto-created during import
(lines 1783-1789). -/
def defaultCellType (name : String) : CellType := ⟨name, "#ffffff", 20⟩

/-- The marker loop of import_coordinates (lines 1776-1802): the cell type
is read with a default and auto-created when unknown, the marker number is
reassigned densely per type from the document order, and a marker entry
with a missing coordinate raises after its cell type was created. -/
def importMarkers : AnnotationState → List DocMarker → AnnotationState × Bool
  | s, [] => (s, false)
  | s, md :: rest =>
    let ctName := md.cell_type.getD "Type 1"
    let s1 := if (lookupKey ctName s.cellTypes).isSome then s
              else { s with cellTypes := s.cellTypes ++ [(ctName, defaultCellType ctName)] }
    match md.mx, md.my with
    | some x, some y =>
      let n := countType ctName s1.cellMarkers + 1
      importMarkers
        { s1 with cellMarkers := s1.cellMarkers ++ [⟨⟨x, y⟩, ctName, n, md.roi⟩] } rest
    | _, _ => (s1, true)

/-- import_coordinates (lines 1743-1832).  A document that cannot be
opened or parsed (doc = none) raises inside json.load, before the clearing
block, so the state is returned untouched.  Once parsing succeeded the
state is cleared, then ROIs and markers are replayed; an exception raised
by an entry is caught by the surrounding except block, which only shows a
message, so the partially rebuilt state stands. -/
def importCoordinates (s : AnnotationState) (doc : Option Doc) : AnnotationState :=
  match doc with
  | none => s
  | some d =>
    let s1 := clearForImport s
    let r := importRois s1 (d.rois.getD [])
    if r.2 then r.1
    else (importMarkers r.1 (d.markers.getD [])).1

/-! The per-channel adjustment pipeline (image_processing.py).  A channel
is a list of uint8 pixel values, modelled as naturals; float32 arithmetic
is modelled over the rationals; np.clip followed by astype(uint8) is
clipping to [0, 255] followed by truncation.  The scipy Gaussian filter is
an external capability and enters as a function parameter, together with
the HAS_SCIPY flag. -/

/-- np.clip(v, 0, 255).astype(np.uint8) on one value. -/
def clipToUint8 (q : ℚ) : ℕ := (max 0 (min 255 q)).floor.toNat

/-- apply_brightness (image_processing.py lines 16-37): exact early return
at brightness 0, otherwise shift by brightness * 2.55 and clip. -/
def applyBrightness (channel : List ℕ) (brightness : ℤ) : List ℕ :=
  if brightness = 0 then channel
  else channel.map (fun v => clipToUint8 ((v : ℚ) + (brightness : ℚ) * (255 / 100)))

/-- apply_contrast (lines 40-62): exact early return at contrast 1.0,
otherwise scale around the midpoint 128 and clip. -/
def applyContrast (channel : List ℕ) (contrast : ℚ) : List ℕ :=
  if contrast = 1 then channel
  else channel.map (fun v => clipToUint8 (((v : ℚ) - 128) * contrast + 128))

/-- apply_noise_reduction_channel (lines 65-86): exact early return at
strength 0, pass-through when scipy is unavailable, otherwise a Gaussian
filter with sigma = strength * 0.2. -/
def applyNoiseReductionChannel (gaussianFilter : ℚ → List ℕ → List ℕ)
    (hasScipy : Bool) (channel : List ℕ) (strength : ℤ) : List ℕ :=
  if strength = 0 then channel
  else if !hasScipy then channel
  else gaussianFilter ((strength : ℚ) * (2 / 10)) channel

/-- datatypes.ImageAdjustments: the nine per-channel knobs. -/
structure ImageAdjustments where
  brightness_r : ℤ
  brightness_g : ℤ
  brightness_b : ℤ
  contrast_r : ℚ
  contrast_g : ℚ
  contrast_b : ℚ
  noise_r : ℤ
  noise_g : ℤ
  noise_b : ℤ
deriving DecidableEq

/-- The neutral record: all defaults of ImageAdjustments. -/
def neutralAdjustments : ImageAdjustments := ⟨0, 0, 0, 1, 1, 1, 0, 0, 0⟩

/-- A 3-channel 8-bit image, one pixel list per channel.  The source code
copies the input array and only ever writes into the copy, so value
semantics model it faithfully. -/
structure RGBImage where
  r : List ℕ
  g : List ℕ
  b : List ℕ
deriving DecidableEq

/-- apply_all_adjustments (lines 89-127): per channel, brightness then
contrast then noise reduction, channels processed independently. -/
def applyAllAdjustments (gaussianFilter : ℚ → List ℕ → List ℕ) (hasScipy : Bool)
    (image : RGBImage) (adjustments : ImageAdjustments) : RGBImage :=
  let r := applyNoiseReductionChannel gaussianFilter hasScipy
    (applyContrast (applyBrightness image.r adjustments.brightness_r) adjustments.contrast_r)
    adjustments.noise_r
  let g := applyNoiseReductionChannel gaussianFilter hasScipy
    (applyContrast (applyBrightness image.g adjustments.brightness_g) adjustments.contrast_g)
    adjustments.noise_g
  let b := applyNoiseReductionChannel gaussianFilter hasScipy
    (applyContrast (applyBrightness image.b adjustments.brightness_b) adjustments.contrast_b)
    adjustments.noise_b
  ⟨r, g, b⟩

/-! Dense numbering: the per-type marker numbers read off in list order. -/

/-- The marker numbers of one cell type, in their list order. -/
def typeNumbers (t : String) (ms : List CellMarker) : List ℕ :=
  (ms.filter (fun m => m.cell_type == t)).map CellMarker.marker_number

/-- Dense numbering invariant: for every cell type, the numbers in list
order are exactly 1, 2, ..., N. -/
def DenseNumbering (ms : List CellMarker) : Prop :=
  ∀ t : String, typeNumbers t ms = List.range' 1 (typeNumbers t ms).length

/-- The marker-level operations named by the renumbering property:
additions, selection, explicit delete-selected, and undo-last-added. -/
inductive MarkerOp where
  | add (pos : Point)
  | setActive (name : String)
  | select (idx : ℤ)
  | deleteSelected
  | undoLast
deriving DecidableEq

/-- Dispatch one marker operation to the corresponding engine function. -/
def applyMarkerOp (s : AnnotationState) : MarkerOp → AnnotationState
  | .add pos => addCellMarker pos s
  | .setActive name => setActiveCellType name s
  | .select i => selectMarker i s
  | .deleteSelected => deleteSelectedMarker s
  | .undoLast => undoLastMarker s

/-- Run a sequence of marker operations left to right. -/
def applyMarkerOps (s : AnnotationState) : List MarkerOp → AnnotationState
  | [] => s
  | op :: ops => applyMarkerOps (applyMarkerOp s op) ops

/-! Concrete sample data used to evaluate the engine at specific inputs. -/

/-- An axis-aligned square with corners (0,0) and (10,10). -/
def squareA : List Point := [⟨0, 0⟩, ⟨10, 0⟩, ⟨10, 10⟩, ⟨0, 10⟩]

/-- An axis-aligned square with corners (5,5) and (15,15), overlapping
squareA. -/
def squareB : List Point := [⟨5, 5⟩, ⟨15, 5⟩, ⟨15, 15⟩, ⟨5, 15⟩]

/-- A sample cell type. -/
def sampleType : CellType := ⟨"T", "#ff6464", 20⟩

/-- Two overlapping closed ROIs, A created before B. -/
def roisAB : List ROI :=
  [⟨"A", squareA, "#ffff00", 2, true⟩, ⟨"B", squareB, "#ffff00", 2, true⟩]

/-- A state with one marker at (5,5) without membership and one
in-progress ROI (squareA) about to be closed around it. -/
def stateBeforeClose : AnnotationState :=
  ⟨[("T", sampleType)], some "T", [⟨⟨5, 5⟩, "T", 1, none⟩],
   [⟨"A", squareA, "#ffff00", 2, false⟩], some 0, [], -1⟩

/-- A state with two markers of type T numbered 1 and 2, the first one
selected for deletion. -/
def stateTwoMarkers : AnnotationState :=
  ⟨[("T", sampleType)], some "T",
   [⟨⟨0, 0⟩, "T", 1, none⟩, ⟨⟨1, 1⟩, "T", 2, none⟩], [], none, [], 0⟩

/-- A state with two closed ROIs named A and B and one marker inside A. -/
def stateRenameTarget : AnnotationState :=
  ⟨[("T", sampleType)], some "T", [⟨⟨5, 5⟩, "T", 1, some "A"⟩],
   roisAB, none, [], -1⟩

/-- An empty annotation state with one cell type. -/
def stateEmpty : AnnotationState := ⟨[("T", sampleType)], some "T", [], [], none, [], -1⟩

/-- A state holding one marker, one closed ROI and one undo entry, used as
the prior state for an import. -/
def stateBeforeImport : AnnotationState :=
  ⟨[("T", sampleType)], some "T", [⟨⟨5, 5⟩, "T", 1, some "A"⟩],
   [⟨"A", squareA, "#ffff00", 2, true⟩], none, [⟨⟨2, 2⟩, "T", 7, none⟩], -1⟩

/-- A parseable document whose only marker entry is missing the required
field x. -/
def docBadMarker : Doc := ⟨some [], some [⟨some "T", none, some 1, some "A"⟩]⟩

/-! Theorems. -/

/-- C6: applying the adjustment pipeline with neutral values (brightness 0
on all channels, contrast 1.0 on all channels, noise reduction 0 on all
channels) returns pixel data identical to the input, for every channel
value distribution, independently of the Gaussian-filter capability; the
source image enters by value and is never written. -/
theorem neutral_adjustments_identity (gaussianFilter : ℚ → List ℕ → List ℕ)
    (hasScipy : Bool) (image : RGBImage) :
    applyAllAdjustments gaussianFilter hasScipy image neutralAdjustments = image := by
  simp [applyAllAdjustments, neutralAdjustments, applyBrightness, applyContrast,
        applyNoiseReductionChannel]

/-- C10: moving a whole ROI by a delta or moving one of its vertices
rewrites only the points of that ROI; the marker list (hence every roi_name
field) is untouched, the moved ROI keeps its name, color, line width and
closed flag, and every other ROI is unchanged. -/
theorem move_roi_frame :
    (∀ (s : AnnotationState) (i : ℕ) (delta : Point) (roi : ROI),
       s.rois.get? i = some roi →
       moveRoi i delta s = { s with rois := s.rois.set i ({ roi with points := roi.points.map (fun p => ⟨p.x + delta.x, p.y + delta.y⟩) }) }) ∧
    (∀ (s : AnnotationState) (i j : ℕ) (v : Point) (roi : ROI),
       s.rois.get? i = some roi → j < roi.points.length →
       moveRoiVertex i j v s = { s with rois := s.rois.set i ({ roi with points := roi.points.set j v }) }) ∧
    (∀ (s : AnnotationState) (i : ℕ) (delta : Point),
       (moveRoi i delta s).cellMarkers = s.cellMarkers) ∧
    (∀ (s : AnnotationState) (i j : ℕ) (v : Point),
       (moveRoiVertex i j v s).cellMarkers = s.cellMarkers) ∧
    (∀ (s : AnnotationState) (i : ℕ) (delta : Point) (j : ℕ), j ≠ i →
       (moveRoi i delta s).rois.get? j = s.rois.get? j) ∧
    (∀ (s : AnnotationState) (i j : ℕ) (v : Point) (k : ℕ), k ≠ i →
       (moveRoiVertex i j v s).rois.get? k = s.rois.get? k) := by
  refine ⟨?_, ?_, ?_, ?_, ?_, ?_⟩
  · intro s i delta roi h
    unfold moveRoi
    rw [h]
  · intro s i j v roi h hj
    unfold moveRoiVertex
    rw [h]
    simp [hj]
  · intro s i delta
    unfold moveRoi
    cases h : s.rois.get? i <;> simp
  · intro s i j v
    unfold moveRoiVertex
    cases h : s.rois.get? i
    · simp
    · rename_i roi
      by_cases hj : j < roi.points.length <;> simp [hj]
  · intro s i delta j hj
    unfold moveRoi
    cases h : s.rois.get? i
    · simp
    · simp [List.getElem?_set_ne (Ne.symm hj)]
  · intro s i j v k hk
    unfold moveRoiVertex
    cases h : s.rois.get? i
    · simp
    · rename_i roi
      by_cases hj : j < roi.points.length <;>
        simp [hj, List.getElem?_set_ne (Ne.symm hk)]

/-- C10 witness: the frame conditions evaluated on a concrete state. -/
theorem move_roi_frame_witness :
    moveRoi 0 ⟨1, 1⟩ stateRenameTarget = { stateRenameTarget with rois := stateRenameTarget.rois.set 0 ({ (⟨"A", squareA, "#ffff00", 2, true⟩ : ROI) with points := squareA.map (fun p => ⟨p.x + 1, p.y + 1⟩) }) } :=
  move_roi_frame.1 stateRenameTarget 0 ⟨1, 1⟩ ⟨"A", squareA, "#ffff00", 2, true⟩ rfl

/-- C2 counterexample: closing an ROI of at least 3 points around an
existing marker with null membership does mark the ROI closed, yet the
marker keeps roi_name = none even though the even-odd containment test
places it inside the newly closed ROI; close_current_roi performs no
membership recomputation. -/
theorem close_roi_counterexample :
    (closeCurrentRoi stateBeforeClose).rois.map ROI.closed = [true] ∧
    containsPointOddEven squareA ⟨5, 5⟩ = true ∧
    (closeCurrentRoi stateBeforeClose).cellMarkers = [⟨⟨5, 5⟩, "T", 1, none⟩] := by
  refine ⟨rfl, ?_, rfl⟩
  simp [containsPointOddEven, polygonEdges, edgeCrossesRay, squareA, List.countP, List.countP.go]
  norm_num

/-- C2 amended: with an in-progress ROI of at least 3 points, close sets
the ROI closed and drops the in-progress reference, but leaves every
existing marker, in particular its roi_name, unchanged; membership is only
computed when a marker is added or moved. -/
theorem close_roi_amended (s : AnnotationState) (i : ℕ) (roi : ROI)
    (h1 : s.currentRoi = some i) (h2 : s.rois.get? i = some roi)
    (h3 : 3 ≤ roi.points.length) :
    closeCurrentRoi s = { s with rois := s.rois.set i ({ roi with closed := true }), currentRoi := none } ∧
    (closeCurrentRoi s).cellMarkers = s.cellMarkers := by
  have hc : closeCurrentRoi s = { s with rois := s.rois.set i ({ roi with closed := true }), currentRoi := none } := by
    simp only [closeCurrentRoi, h1, h2, h3, if_true]
  exact ⟨hc, by rw [hc]⟩

/-- C2 amended witness: the amended statement evaluated on the concrete
state stateBeforeClose. -/
theorem close_roi_amended_witness :
    closeCurrentRoi stateBeforeClose = { stateBeforeClose with rois := stateBeforeClose.rois.set 0 ({ (⟨"A", squareA, "#ffff00", 2, false⟩ : ROI) with closed := true }), currentRoi := none } ∧
    (closeCurrentRoi stateBeforeClose).cellMarkers = stateBeforeClose.cellMarkers :=
  close_roi_amended stateBeforeClose 0 ⟨"A", squareA, "#ffff00", 2, false⟩ rfl rfl
    (by decide)

/-- C3 counterexample: from two markers of type T numbered 1 and 2 with
the first selected, delete-selected renumbers the survivor to 1; redo then
re-appends the deleted marker with the marker_number 1 it carried when
deleted instead of recomputing it to 1 + 1 = 2, so the numbers of type T
become [1, 1], which is not dense. -/
theorem redo_marker_counterexample :
    ((redoMarker (deleteSelectedMarker stateTwoMarkers)).cellMarkers.map
       CellMarker.marker_number) = [1, 1] ∧
    countType "T" (deleteSelectedMarker stateTwoMarkers).cellMarkers + 1 = 2 ∧
    ¬ DenseNumbering (redoMarker (deleteSelectedMarker stateTwoMarkers)).cellMarkers := by
  refine ⟨by decide, by decide, fun h => absurd (h "T") (by decide)⟩

/-- C3 amended: redo pops the last-deleted marker and re-appends it with
the marker_number it carried when it was pushed, verbatim; no
recomputation takes place, so numbers of its cell type need not stay
dense. -/
theorem redo_marker_amended (s : AnnotationState) (m : CellMarker)
    (h : s.undoStack.getLast? = some m) :
    (redoMarker s).cellMarkers = s.cellMarkers ++ [m] ∧
    (redoMarker s).undoStack = s.undoStack.dropLast := by
  unfold redoMarker
  rw [h]
  exact ⟨rfl, rfl⟩

/-- C3 amended witness: redo after a deletion on the concrete two-marker
state re-appends the marker record unchanged. -/
theorem redo_marker_amended_witness :
    (redoMarker (deleteSelectedMarker stateTwoMarkers)).cellMarkers =
      (deleteSelectedMarker stateTwoMarkers).cellMarkers ++ [⟨⟨0, 0⟩, "T", 1, none⟩] ∧
    (redoMarker (deleteSelectedMarker stateTwoMarkers)).undoStack =
      (deleteSelectedMarker stateTwoMarkers).undoStack.dropLast :=
  redo_marker_amended (deleteSelectedMarker stateTwoMarkers) ⟨⟨0, 0⟩, "T", 1, none⟩
    (by decide)

/-- C4 counterexample: renaming ROI A to the name B of another existing
ROI is applied rather than rejected: afterwards two ROIs carry the name B
and the marker that referenced A now references B. -/
theorem rename_roi_collision_counterexample :
    (renameRoi "A" "B" stateRenameTarget).rois.map ROI.name = ["B", "B"] ∧
    (renameRoi "A" "B" stateRenameTarget).cellMarkers.map CellMarker.roi_name = [some "B"] ∧
    stateRenameTarget.rois.map ROI.name = ["A", "B"] := by
  refine ⟨by decide, by decide, by decide⟩

/-- C4 amended: renaming a CellType to an existing cell-type name is a
no-op reported as a conflict, and a fresh-name CellType rename cascades to
every marker referencing the old name; renaming an ROI, however, performs
no conflict check: under the dialog guard it renames the first ROI with
the old name and cascades to markers even when the new name collides with
an existing ROI name. -/
theorem rename_cascade_amended :
    (∀ (s : AnnotationState) (oldName newName : String),
       (lookupKey newName s.cellTypes).isSome = true →
       handleCellTypeRename oldName newName s = s) ∧
    (∀ (s : AnnotationState) (oldName newName : String) (ct : CellType),
       lookupKey newName s.cellTypes = none →
       lookupKey oldName s.cellTypes = some ct →
       (handleCellTypeRename oldName newName s).cellMarkers =
         s.cellMarkers.map (fun m => if m.cell_type == oldName then { m with cell_type := newName } else m)) ∧
    (∀ (s : AnnotationState) (oldName newName : String),
       newName ≠ "" → newName ≠ oldName →
       (renameRoi oldName newName s).rois = (if (s.rois.find? (fun r => r.name == oldName)).isSome then renameFirstRoi oldName newName s.rois else s.rois) ∧
       (renameRoi oldName newName s).cellMarkers = (if (s.rois.find? (fun r => r.name == oldName)).isSome then s.cellMarkers.map (fun m => if m.roi_name == some oldName then { m with roi_name := some newName } else m) else s.cellMarkers)) := by
  refine ⟨?_, ?_, ?_⟩
  · intro s oldName newName h
    unfold handleCellTypeRename
    rw [if_pos h]
  · intro s oldName newName ct hnew hold
    unfold handleCellTypeRename
    rw [if_neg (by simp [hnew]), hold]
  · intro s oldName newName h1 h2
    unfold renameRoi
    have hguard : (newName != "" && newName != oldName) = true := by
      simp [bne, h1, h2]
    rw [if_pos hguard]
    by_cases hf : (s.rois.find? (fun r => r.name == oldName)).isSome
    · rw [if_pos hf]
      simp [hf]
    · rw [if_neg hf]
      simp [hf]

/-- C4 amended witness: the three parts of the amended statement at
concrete inputs: a colliding cell-type rename is a no-op, a fresh
cell-type rename cascades, and an ROI rename onto a colliding name is
still applied. -/
theorem rename_cascade_amended_witness :
    handleCellTypeRename "T" "T" stateRenameTarget = stateRenameTarget ∧
    (handleCellTypeRename "T" "U" stateRenameTarget).cellMarkers =
      stateRenameTarget.cellMarkers.map (fun m => if m.cell_type == "T" then { m with cell_type := "U" } else m) ∧
    (renameRoi "A" "B" stateRenameTarget).rois = (if (stateRenameTarget.rois.find? (fun r => r.name == "A")).isSome then renameFirstRoi "A" "B" stateRenameTarget.rois else stateRenameTarget.rois) :=
  ⟨rename_cascade_amended.1 stateRenameTarget "T" "T" (by decide),
   rename_cascade_amended.2.1 stateRenameTarget "T" "U" sampleType (by decide) (by decide),
   (rename_cascade_amended.2.2 stateRenameTarget "A" "B" (by decide) (by decide)).1⟩

/-- C5 counterexample: starting ROI A, adding one point, then starting ROI
B without closing A leaves two unclosed ROIs in the ROI list; _create_roi
performs no check that no ROI is currently being drawn. -/
theorem two_unclosed_rois_counterexample :
    ((createRoi "B" "#ffff00" 2 (addRoiPoint ⟨1, 1⟩ (createRoi "A" "#ffff00" 2 stateEmpty))).rois.filter
        (fun r => !r.closed)).length = 2 := by
  decide

/-- C5 amended: _create_roi appends a fresh unclosed ROI unconditionally
and points current_roi at it; no DRAWING-state precondition is enforced,
so the number of unclosed ROIs in the list always grows by one and a
previously in-progress ROI is left unclosed in the list. -/
theorem create_roi_amended (s : AnnotationState) (name color : String) (lw : ℤ) :
    (createRoi name color lw s).rois = s.rois ++ [⟨name, [], color, lw, false⟩] ∧
    (createRoi name color lw s).currentRoi = some s.rois.length ∧
    ((createRoi name color lw s).rois.filter (fun r => !r.closed)).length =
      ((s.rois.filter (fun r => !r.closed)).length) + 1 := by
  refine ⟨rfl, rfl, ?_⟩
  simp [createRoi]

/-- The ROI phase of an import never touches the marker list or the undo
stack. -/
theorem importRois_preserves (rds : List DocRoi) (s : AnnotationState) :
    (importRois s rds).1.cellMarkers = s.cellMarkers ∧
    (importRois s rds).1.undoStack = s.undoStack := by
  induction rds generalizing s with
  | nil => exact ⟨rfl, rfl⟩
  | cons rd rest ih =>
    unfold importRois
    cases h : docPointsToPoints rd.points
    · exact ⟨rfl, rfl⟩
    · rename_i pts
      by_cases hp : pts.isEmpty <;> simp [hp, ih]

/-- A marker entry whose x field is missing aborts the marker phase on the
spot, leaving the marker list and the undo stack as they were when the
phase started. -/
theorem importMarkers_fail_first (s : AnnotationState) (md : DocMarker)
    (rest : List DocMarker) (h : md.mx = none) :
    (importMarkers s (md :: rest)).1.cellMarkers = s.cellMarkers ∧
    (importMarkers s (md :: rest)).1.undoStack = s.undoStack := by
  unfold importMarkers
  by_cases hl : (lookupKey (md.cell_type.getD "Type 1") s.cellTypes).isSome <;>
    simp [h, hl]

/-- C1 counterexample: importing a parseable document whose only marker
entry is missing the required field x destroys the prior annotation state:
starting from a state with one marker, one closed ROI and one undo entry,
the import fails yet leaves markers, ROIs and undo stack empty, because
the clearing happens before the entry is validated. -/
theorem import_counterexample :
    (importCoordinates stateBeforeImport (some docBadMarker)).cellMarkers = [] ∧
    stateBeforeImport.cellMarkers ≠ [] ∧
    (importCoordinates stateBeforeImport (some docBadMarker)).rois = [] ∧
    stateBeforeImport.rois ≠ [] ∧
    (importCoordinates stateBeforeImport (some docBadMarker)).undoStack = [] ∧
    stateBeforeImport.undoStack ≠ [] := by
  refine ⟨by decide, by decide, by decide, by decide, by decide, by decide⟩

/-- C1 amended: only failures that precede parsing (unreadable file,
malformed JSON) leave the prior annotation state untouched; a failure on a
marker entry missing a required field occurs after the in-memory state was
cleared, so markers and the undo stack end up empty rather than restored. -/
theorem import_amended :
    (∀ s : AnnotationState, importCoordinates s none = s) ∧
    (∀ (s : AnnotationState) (d : Doc) (md : DocMarker) (rest : List DocMarker),
       d.markers = some (md :: rest) → md.mx = none →
       (importCoordinates s (some d)).cellMarkers = [] ∧
       (importCoordinates s (some d)).undoStack = []) := by
  constructor
  · intro s; rfl
  · intro s d md rest hm hx
    unfold importCoordinates
    have hclear1 : (clearForImport s).cellMarkers = [] := rfl
    have hclear2 : (clearForImport s).undoStack = [] := rfl
    cases he : (importRois (clearForImport s) (d.rois.getD [])).2
    · simp only [he, if_false, Bool.false_eq_true]
      rw [hm]
      have hpres := importRois_preserves (d.rois.getD []) (clearForImport s)
      have hfail := importMarkers_fail_first
        (importRois (clearForImport s) (d.rois.getD [])).1 md rest hx
      simp only [Option.getD_some]
      exact ⟨hfail.1.trans (hpres.1.trans hclear1),
             hfail.2.trans (hpres.2.trans hclear2)⟩
    · simp only [he, if_true]
      have hpres := importRois_preserves (d.rois.getD []) (clearForImport s)
      exact ⟨hpres.1.trans hclear1, hpres.2.trans hclear2⟩

/-- C1 amended witness: the second part of the amended statement at the
concrete prior state and the concrete bad document. -/
theorem import_amended_witness :
    (importCoordinates stateBeforeImport (some docBadMarker)).cellMarkers = [] ∧
    (importCoordinates stateBeforeImport (some docBadMarker)).undoStack = [] :=
  import_amended.2 stateBeforeImport docBadMarker ⟨some "T", none, some 1, some "A"⟩ []
    rfl rfl

/-- The point (7,7) is inside squareA by the even-odd rule. -/
theorem contains_squareA_seven : containsPointOddEven squareA ⟨7, 7⟩ = true := by
  simp [containsPointOddEven, polygonEdges, edgeCrossesRay, squareA, List.countP, List.countP.go]
  norm_num

/-- The point (7,7) is inside squareB by the even-odd rule. -/
theorem contains_squareB_seven : containsPointOddEven squareB ⟨7, 7⟩ = true := by
  simp [containsPointOddEven, polygonEdges, edgeCrossesRay, squareB, List.countP, List.countP.go]
  norm_num

/-- The point (20,20) is outside squareA by the even-odd rule. -/
theorem not_contains_squareA_twenty : containsPointOddEven squareA ⟨20, 20⟩ = false := by
  simp [containsPointOddEven, polygonEdges, edgeCrossesRay, squareA, List.countP, List.countP.go]
  norm_num

/-- The point (20,20) is outside squareB by the even-odd rule. -/
theorem not_contains_squareB_twenty : containsPointOddEven squareB ⟨20, 20⟩ = false := by
  simp [containsPointOddEven, polygonEdges, edgeCrossesRay, squareB, List.countP, List.countP.go]
  norm_num

/-- C8: membership resolution, as run on marker creation and on marker
move, walks the ROI list in creation order and returns the first closed
ROI whose even-odd containment test succeeds, so a marker inside several
overlapping closed ROIs is assigned to the earliest-created one only; when
no closed ROI contains the position the membership is null; and both
add_cell_marker and move_marker store exactly this result in the marker. -/
theorem membership_resolution :
    (∀ (rois : List ROI) (pos : Point) (i : ℕ) (hi : i < rois.length),
       (rois.get ⟨i, hi⟩).closed = true →
       containsPointOddEven (rois.get ⟨i, hi⟩).points pos = true →
       (∀ (j : ℕ) (hj : j < rois.length), j < i →
          ¬((rois.get ⟨j, hj⟩).closed = true ∧
            containsPointOddEven (rois.get ⟨j, hj⟩).points pos = true)) →
       resolveMembership rois pos = some (rois.get ⟨i, hi⟩).name) ∧
    (∀ (rois : List ROI) (pos : Point),
       (∀ r ∈ rois, ¬(r.closed = true ∧ containsPointOddEven r.points pos = true)) →
       resolveMembership rois pos = none) ∧
    (∀ (s : AnnotationState) (pos : Point) (ct : String),
       s.currentCellType = some ct → ct ≠ "" →
       (lookupKey ct s.cellTypes).isSome = true →
       (addCellMarker pos s).cellMarkers =
         s.cellMarkers ++ [⟨pos, ct, countType ct s.cellMarkers + 1, resolveMembership s.rois pos⟩]) ∧
    (∀ (s : AnnotationState) (idx : ℕ) (pos : Point) (m : CellMarker),
       s.cellMarkers.get? idx = some m →
       (moveMarker idx pos s).cellMarkers =
         s.cellMarkers.set idx ({ m with position := pos, roi_name := resolveMembership s.rois pos })) := by
  refine ⟨?_, ?_, ?_, ?_⟩
  · intro rois pos
    induction rois with
    | nil => intro i hi; exact absurd hi (by simp)
    | cons roi rest ih =>
      intro i hi hc hin hfirst
      cases i with
      | zero =>
        show resolveMembership (roi :: rest) pos = some roi.name
        have hc0 : roi.closed = true := hc
        have hin0 : containsPointOddEven roi.points pos = true := hin
        unfold resolveMembership
        rw [hc0, hin0]
        rfl
      | succ n =>
        have hhead := hfirst 0 (by simp) (Nat.succ_pos n)
        have hcond : (roi.closed && containsPointOddEven roi.points pos) = false := by
          cases h1 : roi.closed <;> cases h2 : containsPointOddEven roi.points pos <;>
            simp_all
        unfold resolveMembership
        rw [hcond]
        simp only [Bool.false_eq_true, if_false]
        exact ih n (Nat.lt_of_succ_lt_succ hi) hc hin
          (fun j hj hlt => hfirst (j + 1) (Nat.succ_lt_succ hj) (Nat.succ_lt_succ hlt))
  · intro rois pos h
    induction rois with
    | nil => rfl
    | cons roi rest ih =>
      have hhead := h roi (List.mem_cons_self roi rest)
      have hcond : (roi.closed && containsPointOddEven roi.points pos) = false := by
        cases h1 : roi.closed <;> cases h2 : containsPointOddEven roi.points pos <;>
          simp_all
      unfold resolveMembership
      rw [hcond]
      simp only [Bool.false_eq_true, if_false]
      exact ih (fun r hr => h r (List.mem_cons_of_mem roi hr))
  · intro s pos ct hct hne hsome
    unfold addCellMarker
    rw [hct]
    have h1 : (ct == "") = false := by simpa using hne
    have h2 : (lookupKey ct s.cellTypes).isNone = false := by
      cases h : lookupKey ct s.cellTypes <;> simp_all
    simp only [h1, h2, Bool.false_eq_true, if_false]
  · intro s idx pos m h
    unfold moveMarker
    rw [h]

/-- C8 witness: with overlapping closed ROIs A (created first) and B, the
point (7,7) lies inside both yet resolves to A only, and the point (20,20)
lies in neither and resolves to null. -/
theorem membership_resolution_witness :
    resolveMembership roisAB ⟨7, 7⟩ = some ((roisAB.get ⟨0, by decide⟩).name) ∧
    containsPointOddEven squareB ⟨7, 7⟩ = true ∧
    resolveMembership roisAB ⟨20, 20⟩ = none := by
  refine ⟨?_, contains_squareB_seven, ?_⟩
  · exact membership_resolution.1 roisAB ⟨7, 7⟩ 0 (by decide) rfl contains_squareA_seven
      (fun j hj hlt => absurd hlt (Nat.not_lt_zero j))
  · refine membership_resolution.2.1 roisAB ⟨20, 20⟩ ?_
    intro r hr
    have : r = (⟨"A", squareA, "#ffff00", 2, true⟩ : ROI) ∨
           r = (⟨"B", squareB, "#ffff00", 2, true⟩ : ROI) := by
      simpa [roisAB] using hr
    rcases this with h | h <;> subst h
    · intro hc
      rw [not_contains_squareA_twenty] at hc
      exact absurd hc.2 (by simp)
    · intro hc
      rw [not_contains_squareB_twenty] at hc
      exact absurd hc.2 (by simp)

/-- A key absent from the dictionary looks up to none. -/
theorem lookupKey_not_mem {k : String} {l : List (String × CellType)}
    (h : k ∉ l.map Prod.fst) : lookupKey k l = none := by
  induction l with
  | nil => rfl
  | cons e rest ih =>
    simp only [List.map_cons, List.mem_cons, not_or] at h
    have he : (e.1 == k) = false := by
      simp only [beq_eq_false_iff_ne]
      exact fun hh => h.1 hh.symm
    simp only [lookupKey, List.find?_cons, he]
    exact ih h.2

/-- Removing one key does not affect lookups of other keys. -/
theorem lookupKey_removeKey_ne {k k2 : String} (l : List (String × CellType))
    (h : k2 ≠ k) : lookupKey k2 (removeKey k l) = lookupKey k2 l := by
  induction l with
  | nil => rfl
  | cons e rest ih =>
    unfold removeKey
    by_cases he : (e.1 == k) = true
    · rw [if_pos he]
      have he2 : (e.1 == k2) = false := by
        have : e.1 = k := by simpa using he
        simp only [beq_eq_false_iff_ne, this]
        exact fun hh => h hh.symm
      simp only [lookupKey, List.find?_cons, he2]
    · rw [if_neg he]
      simp only [lookupKey, List.find?_cons]
      cases h2 : (e.1 == k2)
      · exact ih
      · rfl

/-- Removing a present key shortens the dictionary by one. -/
theorem length_removeKey {k : String} (l : List (String × CellType))
    (h : (lookupKey k l).isSome = true) :
    (removeKey k l).length + 1 = l.length := by
  induction l with
  | nil => simp [lookupKey] at h
  | cons e rest ih =>
    unfold removeKey
    by_cases he : (e.1 == k) = true
    · rw [if_pos he]; rfl
    · rw [if_neg he]
      have hrest : (lookupKey k rest).isSome = true := by
        simp only [lookupKey, List.find?_cons] at h
        rw [Bool.not_eq_true] at he
        rw [he] at h
        exact h
      simp only [List.length_cons, ih hrest]

/-- With unique keys, a removed key no longer looks up. -/
theorem lookupKey_removeKey_self {k : String} (l : List (String × CellType))
    (hnd : (l.map Prod.fst).Nodup) : lookupKey k (removeKey k l) = none := by
  induction l with
  | nil => rfl
  | cons e rest ih =>
    simp only [List.map_cons, List.nodup_cons] at hnd
    unfold removeKey
    by_cases he : (e.1 == k) = true
    · rw [if_pos he]
      have : e.1 = k := by simpa using he
      exact lookupKey_not_mem (this ▸ hnd.1)
    · rw [if_neg he]
      rw [Bool.not_eq_true] at he
      simp only [lookupKey, List.find?_cons, he]
      exact ih hnd.2

/-- The first entry of a dictionary looks up successfully. -/
theorem lookupKey_head (e : String × CellType) (l : List (String × CellType)) :
    (lookupKey e.1 (e :: l)).isSome = true := by
  simp [lookupKey, List.find?_cons]

/-- A second sample cell type. -/
def sampleTypeU : CellType := ⟨"U", "#64ff64", 20⟩

/-- A state with two cell types T and U and one marker of each. -/
def stateTwoTypes : AnnotationState :=
  ⟨[("T", sampleType), ("U", sampleTypeU)], some "T",
   [⟨⟨0, 0⟩, "T", 1, none⟩, ⟨⟨1, 1⟩, "U", 1, none⟩], [], none, [], -1⟩

/-- C9: deleting the only remaining CellType is rejected with the state
unchanged; with at least two cell types and unique keys, deleting an
existing one removes exactly that dictionary entry (at least one type
remains), drops every marker of that type, and when the current type was
usable it ends on a type that still exists. -/
theorem delete_cell_type_correct :
    (∀ (s : AnnotationState) (name : String), s.cellTypes.length = 1 →
       deleteCellType name s = s) ∧
    (∀ (s : AnnotationState) (name : String),
       2 ≤ s.cellTypes.length → (lookupKey name s.cellTypes).isSome = true →
       (s.cellTypes.map Prod.fst).Nodup →
       lookupKey name (deleteCellType name s).cellTypes = none ∧
       (deleteCellType name s).cellTypes.length + 1 = s.cellTypes.length ∧
       1 ≤ (deleteCellType name s).cellTypes.length ∧
       (∀ m ∈ (deleteCellType name s).cellMarkers, m.cell_type ≠ name) ∧
       (∀ c : String, s.currentCellType = some c →
          (lookupKey c s.cellTypes).isSome = true →
          ∃ c2, (deleteCellType name s).currentCellType = some c2 ∧
            (lookupKey c2 (deleteCellType name s).cellTypes).isSome = true)) := by
  constructor
  · intro s name h
    unfold deleteCellType
    rw [if_pos (by omega)]
  · intro s name hlen hsome hnd
    have hguard : ¬(s.cellTypes.length ≤ 1) := by omega
    have hcts : (deleteCellType name s).cellTypes = removeKey name s.cellTypes := by
      unfold deleteCellType
      rw [if_neg hguard]
      simp only [hsome, if_true]
    have hms : (deleteCellType name s).cellMarkers =
        s.cellMarkers.filter (fun m => m.cell_type != name) := by
      unfold deleteCellType
      rw [if_neg hguard]
    have hlen2 : (removeKey name s.cellTypes).length + 1 = s.cellTypes.length :=
      length_removeKey s.cellTypes hsome
    refine ⟨?_, ?_, ?_, ?_, ?_⟩
    · rw [hcts]
      exact lookupKey_removeKey_self s.cellTypes hnd
    · rw [hcts]; exact hlen2
    · rw [hcts]; omega
    · intro m hm
      rw [hms] at hm
      have := List.of_mem_filter hm
      simpa using this
    · intro c hc hcsome
      have hcur : (deleteCellType name s).currentCellType =
          (if s.currentCellType == some name then
            (match (removeKey name s.cellTypes).head? with
             | some e => some e.1
             | none => none)
          else s.currentCellType) := by
        unfold deleteCellType
        rw [if_neg hguard]
        simp only [hsome, if_true]
      by_cases hceq : c = name
      · subst hceq
        have hbeq : (s.currentCellType == some c) = true := by
          rw [hc]; simp
        rw [hbeq, if_pos rfl] at hcur
        have hne : removeKey c s.cellTypes ≠ [] := by
          intro hnil
          rw [hnil] at hlen2
          simp only [List.length_nil] at hlen2
          omega
        obtain ⟨e, tail, hcons⟩ := List.exists_cons_of_ne_nil hne
        rw [hcons] at hcur
        refine ⟨e.1, hcur, ?_⟩
        rw [hcts, hcons]
        exact lookupKey_head e tail
      · have hbeq : (s.currentCellType == some name) = false := by
          rw [hc]
          simp only [beq_eq_false_iff_ne]
          intro hh
          exact hceq (by simpa using hh)
        rw [hbeq] at hcur
        simp only [Bool.false_eq_true, if_false] at hcur
        refine ⟨c, hcur.trans hc, ?_⟩
        rw [hcts, lookupKey_removeKey_ne s.cellTypes hceq]
        exact hcsome

/-- C9 witness: both parts at concrete states: deleting the single
remaining type of stateEmpty is a no-op, and deleting type T of
stateTwoTypes removes T, keeps one type, drops the T marker and moves the
current type to a surviving one. -/
theorem delete_cell_type_correct_witness :
    deleteCellType "T" stateEmpty = stateEmpty ∧
    lookupKey "T" (deleteCellType "T" stateTwoTypes).cellTypes = none ∧
    (∀ m ∈ (deleteCellType "T" stateTwoTypes).cellMarkers, m.cell_type ≠ "T") ∧
    (∃ c2, (deleteCellType "T" stateTwoTypes).currentCellType = some c2 ∧
       (lookupKey c2 (deleteCellType "T" stateTwoTypes).cellTypes).isSome = true) := by
  have h2 := delete_cell_type_correct.2 stateTwoTypes "T" (by decide) (by decide) (by decide)
  exact ⟨delete_cell_type_correct.1 stateEmpty "T" (by decide), h2.1, h2.2.2.2.1,
         h2.2.2.2.2 "T" rfl (by decide)⟩

/-- typeNumbers distributes over list append. -/
theorem typeNumbers_append (t : String) (ms1 ms2 : List CellMarker) :
    typeNumbers t (ms1 ++ ms2) = typeNumbers t ms1 ++ typeNumbers t ms2 := by
  simp [typeNumbers]

/-- The per-type count is the length of the per-type number list. -/
theorem countType_eq_length (t : String) (ms : List CellMarker) :
    countType t ms = (typeNumbers t ms).length := by
  simp [countType, typeNumbers]

/-- The renumbering loop assigns the numbers k, k+1, ... to the markers of
its target type, in list order. -/
theorem typeNumbers_renumberFrom_self (t : String) (ms : List CellMarker) (k : ℕ) :
    typeNumbers t (renumberFrom t k ms) = List.range' k (countType t ms) := by
  induction ms generalizing k with
  | nil => rfl
  | cons m rest ih =>
    by_cases hm : (m.cell_type == t) = true
    · simp [renumberFrom, hm, typeNumbers, List.filter_cons, countType, ih,
            List.range'_succ]
      simpa [typeNumbers, countType] using ih (k + 1)
    · simp only [renumberFrom, hm, Bool.false_eq_true, if_false]
      simp only [typeNumbers, List.filter_cons, hm, Bool.false_eq_true, if_false,
        countType] at ih ⊢
      exact ih k

/-- The renumbering loop leaves the numbers of every other type
untouched. -/
theorem typeNumbers_renumberFrom_ne (t t2 : String) (ms : List CellMarker) (k : ℕ)
    (h : t2 ≠ t) :
    typeNumbers t2 (renumberFrom t k ms) = typeNumbers t2 ms := by
  induction ms generalizing k with
  | nil => rfl
  | cons m rest ih =>
    by_cases hm : (m.cell_type == t) = true
    · have hm2 : (m.cell_type == t2) = false := by
        have hmt : m.cell_type = t := by simpa using hm
        simp only [beq_eq_false_iff_ne, hmt]
        exact fun hh => h hh.symm
      simp [renumberFrom, hm, typeNumbers, List.filter_cons, hm2]
      exact ih (k + 1)
    · by_cases hm2 : (m.cell_type == t2) = true <;>
        (simp [renumberFrom, hm, typeNumbers, List.filter_cons, hm2]; exact ih k)

/-- Erasing an index whose element fails the filter predicate does not
change the filtered list. -/
theorem filter_eraseIdx_of_get {α : Type} (p : α → Bool) (l : List α) (idx : ℕ)
    (a : α) (h : l.get? idx = some a) (hp : p a = false) :
    (l.eraseIdx idx).filter p = l.filter p := by
  induction l generalizing idx with
  | nil => simp at h
  | cons x xs ih =>
    cases idx with
    | zero =>
      simp only [List.get?] at h
      injection h with h
      subst h
      simp [List.eraseIdx, List.filter_cons, hp]
    | succ n =>
      simp only [List.get?] at h
      simp only [List.eraseIdx, List.filter_cons]
      cases hx : p x <;> simp [hx, ih n h]

/-- Erasing a marker of a different type does not change a type number
list. -/
theorem typeNumbers_eraseIdx_ne (t : String) (ms : List CellMarker) (idx : ℕ)
    (m : CellMarker) (h : ms.get? idx = some m) (hne : (m.cell_type == t) = false) :
    typeNumbers t (ms.eraseIdx idx) = typeNumbers t ms := by
  unfold typeNumbers
  rw [filter_eraseIdx_of_get _ ms idx m h hne]

/-- A list with a known last element splits as dropLast plus that
element. -/
theorem eq_dropLast_append_of_getLast {α : Type} (l : List α) (a : α)
    (h : l.getLast? = some a) : l = l.dropLast ++ [a] := by
  induction l with
  | nil => simp at h
  | cons x xs ih =>
    cases xs with
    | nil =>
      simp only [List.getLast?_singleton] at h
      injection h with h
      subst h
      rfl
    | cons y ys =>
      rw [List.getLast?_cons_cons] at h
      have := ih h
      rw [List.dropLast_cons_of_ne_nil (by simp)]
      rw [List.cons_append, ← this]

/-- Adding a marker preserves dense numbering: the fresh marker receives
one plus the count of its type. -/
theorem dense_addCellMarker (s : AnnotationState) (pos : Point)
    (h : DenseNumbering s.cellMarkers) :
    DenseNumbering (addCellMarker pos s).cellMarkers := by
  unfold addCellMarker
  cases hct : s.currentCellType with
  | none => exact h
  | some ct =>
    by_cases h1 : (ct == "") = true
    · simp only [h1, if_true]; exact h
    · by_cases h2 : (lookupKey ct s.cellTypes).isNone = true
      · simp only [h1, h2, Bool.false_eq_true, if_false, if_true]; exact h
      · simp only [h1, h2, Bool.false_eq_true, if_false]
        intro t
        rw [typeNumbers_append]
        by_cases ht : (ct == t) = true
        · have hteq : ct = t := by simpa using ht
          subst hteq
          have hmk : typeNumbers ct [⟨pos, ct, countType ct s.cellMarkers + 1, resolveMembership s.rois pos⟩] = [countType ct s.cellMarkers + 1] := by
            simp [typeNumbers, List.filter_cons]
          rw [hmk]
          have hh := h ct
          have hcnt : countType ct s.cellMarkers = (typeNumbers ct s.cellMarkers).length :=
            countType_eq_length ct s.cellMarkers
          have hconc : typeNumbers ct s.cellMarkers ++ [countType ct s.cellMarkers + 1] = List.range' 1 ((typeNumbers ct s.cellMarkers).length + 1) := by
            rw [List.range'_concat, ← hh]
            congr 1
            simp [hcnt, Nat.add_comm]
          rw [hconc]
          simp [List.length_range']
        · have hmk : typeNumbers t [⟨pos, ct, countType ct s.cellMarkers + 1, resolveMembership s.rois pos⟩] = [] := by
            simp [typeNumbers, List.filter_cons, ht]
          rw [hmk, List.append_nil]
          exact h t

/-- Undoing the last added marker preserves dense numbering: the last
marker of its type in list order carries the maximal number. -/
theorem dense_undoLastMarker (s : AnnotationState)
    (h : DenseNumbering s.cellMarkers) :
    DenseNumbering (undoLastMarker s).cellMarkers := by
  unfold undoLastMarker
  cases hl : s.cellMarkers.getLast? with
  | none => exact h
  | some m =>
    intro t
    have hsplit : s.cellMarkers = s.cellMarkers.dropLast ++ [m] :=
      eq_dropLast_append_of_getLast _ _ hl
    have ht := h t
    rw [hsplit, typeNumbers_append] at ht
    by_cases hm : (m.cell_type == t) = true
    · have hmk : typeNumbers t [m] = [m.marker_number] := by
        simp [typeNumbers, List.filter_cons, hm]
      rw [hmk] at ht
      have hlen : (typeNumbers t s.cellMarkers.dropLast ++ [m.marker_number]).length = (typeNumbers t s.cellMarkers.dropLast).length + 1 := by simp
      rw [hlen, List.range'_concat] at ht
      have := List.append_inj ht (by simp)
      exact this.1
    · have hmk : typeNumbers t [m] = [] := by
        simp [typeNumbers, List.filter_cons, hm]
      rw [hmk, List.append_nil] at ht
      exact ht

/-- Deleting the selected marker preserves dense numbering: the affected
type is renumbered from 1 and the other types are untouched by both the
erasure and the renumbering. -/
theorem dense_deleteSelectedMarker (s : AnnotationState)
    (h : DenseNumbering s.cellMarkers) :
    DenseNumbering (deleteSelectedMarker s).cellMarkers := by
  unfold deleteSelectedMarker
  by_cases hg : 0 ≤ s.selectedMarkerIndex ∧ s.selectedMarkerIndex < (s.cellMarkers.length : ℤ)
  · rw [if_pos hg]
    cases hget : s.cellMarkers.get? s.selectedMarkerIndex.toNat with
    | none => exact h
    | some m =>
      intro t
      by_cases ht : (m.cell_type == t) = true
      · have hteq : m.cell_type = t := by simpa using ht
        subst hteq
        rw [typeNumbers_renumberFrom_self]
        simp [List.length_range']
      · rw [Bool.not_eq_true] at ht
        have hne : t ≠ m.cell_type := by
          have hmm : m.cell_type ≠ t := by simpa using ht
          exact hmm.symm
        rw [typeNumbers_renumberFrom_ne _ _ _ _ hne,
            typeNumbers_eraseIdx_ne t _ _ m hget ht]
        exact h t
  · rw [if_neg hg]; exact h

/-- C7: starting from any state whose marker numbers are dense per type,
any sequence of marker additions, selections, explicit deletions of the
selected marker and undo-last-added operations keeps, for every cell type,
the marker_number values of that type equal to 1, ..., N in list order with
N the count of that type; in particular this holds after each deletion. -/
theorem renumbering_keeps_dense (ops : List MarkerOp) (s : AnnotationState)
    (h : DenseNumbering s.cellMarkers) :
    DenseNumbering (applyMarkerOps s ops).cellMarkers := by
  induction ops generalizing s with
  | nil => exact h
  | cons op rest ih =>
    apply ih
    cases op with
    | add pos => exact dense_addCellMarker s pos h
    | setActive name => exact h
    | select i => exact h
    | deleteSelected => exact dense_deleteSelectedMarker s h
    | undoLast => exact dense_undoLastMarker s h

/-- C7 witness: the empty state is dense and stays dense across a concrete
add, add, select, delete, undo sequence. -/
theorem renumbering_keeps_dense_witness :
    DenseNumbering stateEmpty.cellMarkers ∧
    DenseNumbering (applyMarkerOps stateEmpty
      [MarkerOp.add ⟨1, 1⟩, MarkerOp.add ⟨2, 2⟩, MarkerOp.select 0,
       MarkerOp.deleteSelected, MarkerOp.undoLast]).cellMarkers :=
  ⟨fun _ => rfl,
   renumbering_keeps_dense
     [MarkerOp.add ⟨1, 1⟩, MarkerOp.add ⟨2, 2⟩, MarkerOp.select 0,
      MarkerOp.deleteSelected, MarkerOp.undoLast] stateEmpty (fun _ => rfl)⟩

end FluoroAnalyzer
